import Mathlib

/-!
# Adafruit_ADS1015 driver: register protocol and device session

A shallow embedding of `Adafruit_ADS1015.cpp`.  The driver object and the two
collaborators it talks to (the two-wire bus and the millisecond timer) are one
explicit state: the object's fields, the bytes the device will hand back to
successive `read()` calls, and the log of every collaborator call made so far.

Machine integers are natural numbers / integers with the truncation written
out where the source converts (`(uint8_t)x` is `x % 256`, a `uint16_t` is
`x % 65536`, `(int16_t)x` is `toInt16 x`).
-/

namespace ADS1015

/-! ## Constants of `Adafruit_ADS1015.h` -/

/-- Modelled from the spec: `Adafruit_ADS1015.h` is not among the sources; pointer of the
conversion register in the register map. -/
def ADS1015_REG_POINTER_CONVERT : Nat := 0x00
/-- Modelled from the spec: `Adafruit_ADS1015.h` is not among the sources; pointer of the
config register in the register map. -/
def ADS1015_REG_POINTER_CONFIG : Nat := 0x01
/-- Modelled from the spec: `Adafruit_ADS1015.h` is not among the sources; pointer of the
low-threshold register in the register map. -/
def ADS1015_REG_POINTER_LOWTHRESH : Nat := 0x02
/-- Modelled from the spec: `Adafruit_ADS1015.h` is not among the sources; pointer of the
high-threshold register in the register map. -/
def ADS1015_REG_POINTER_HITHRESH : Nat := 0x03

/-- Modelled from the spec: header constant, start-conversion flag (bit 15). -/
def ADS1015_REG_CONFIG_OS_SINGLE : Nat := 0x8000

/-- Modelled from the spec: header constant, mask of the multiplexer field (bits 12-14). -/
def ADS1015_REG_CONFIG_MUX_MASK : Nat := 0x7000
/-- Modelled from the spec: header constant, differential pair AIN0 - AIN1. -/
def ADS1015_REG_CONFIG_MUX_DIFF_0_1 : Nat := 0x0000
/-- Modelled from the spec: header constant, differential pair AIN2 - AIN3. -/
def ADS1015_REG_CONFIG_MUX_DIFF_2_3 : Nat := 0x3000
/-- Modelled from the spec: header constant, single-ended AIN0. -/
def ADS1015_REG_CONFIG_MUX_SINGLE_0 : Nat := 0x4000
/-- Modelled from the spec: header constant, single-ended AIN1. -/
def ADS1015_REG_CONFIG_MUX_SINGLE_1 : Nat := 0x5000
/-- Modelled from the spec: header constant, single-ended AIN2. -/
def ADS1015_REG_CONFIG_MUX_SINGLE_2 : Nat := 0x6000
/-- Modelled from the spec: header constant, single-ended AIN3. -/
def ADS1015_REG_CONFIG_MUX_SINGLE_3 : Nat := 0x7000

/-- Modelled from the spec: header constant, mask of the gain field (bits 9-11). -/
def ADS1015_REG_CONFIG_PGA_MASK : Nat := 0x0E00
/-- Modelled from the spec: header constant, ±6.144V range. -/
def ADS1015_REG_CONFIG_PGA_6_144V : Nat := 0x0000
/-- Modelled from the spec: header constant, ±4.096V range. -/
def ADS1015_REG_CONFIG_PGA_4_096V : Nat := 0x0200
/-- Modelled from the spec: header constant, ±2.048V range. -/
def ADS1015_REG_CONFIG_PGA_2_048V : Nat := 0x0400
/-- Modelled from the spec: header constant, ±1.024V range. -/
def ADS1015_REG_CONFIG_PGA_1_024V : Nat := 0x0600
/-- Modelled from the spec: header constant, ±0.512V range. -/
def ADS1015_REG_CONFIG_PGA_0_512V : Nat := 0x0800
/-- Modelled from the spec: header constant, ±0.256V range. -/
def ADS1015_REG_CONFIG_PGA_0_256V : Nat := 0x0A00

/-- Modelled from the spec: header constant, mask of the operating-mode field (bit 8). -/
def ADS1015_REG_CONFIG_MODE_MASK : Nat := 0x0100
/-- Modelled from the spec: header constant, continuous conversion mode. -/
def ADS1015_REG_CONFIG_MODE_CONTIN : Nat := 0x0000
/-- Modelled from the spec: header constant, single-shot mode. -/
def ADS1015_REG_CONFIG_MODE_SINGLE : Nat := 0x0100

/-- Modelled from the spec: header constant, 1600 samples per second. -/
def ADS1015_REG_CONFIG_DR_1600SPS : Nat := 0x0080

/-- Modelled from the spec: header constant, traditional comparator. -/
def ADS1015_REG_CONFIG_CMODE_TRAD : Nat := 0x0000
/-- Modelled from the spec: header constant, ALERT/RDY active low. -/
def ADS1015_REG_CONFIG_CPOL_ACTVLOW : Nat := 0x0000
/-- Modelled from the spec: header constant, mask of the latch bit (bit 2). -/
def ADS1015_REG_CONFIG_CLAT_MASK : Nat := 0x0004
/-- Modelled from the spec: header constant, non-latching comparator. -/
def ADS1015_REG_CONFIG_CLAT_NONLAT : Nat := 0x0000
/-- Modelled from the spec: header constant, latching comparator. -/
def ADS1015_REG_CONFIG_CLAT_LATCH : Nat := 0x0004
/-- Modelled from the spec: header constant, mask of the comparator-queue field (bits 0-1). -/
def ADS1015_REG_CONFIG_CQUE_MASK : Nat := 0x0003
/-- Modelled from the spec: header constant, assert ALERT/RDY after one conversion. -/
def ADS1015_REG_CONFIG_CQUE_1CONV : Nat := 0x0000
/-- Modelled from the spec: header constant, comparator disabled. -/
def ADS1015_REG_CONFIG_CQUE_NONE : Nat := 0x0003

/-- Modelled from the spec: the enumeration `adsGain_t` of `Adafruit_ADS1015.h`, the six
programmable-gain full-scale ranges from ±6.144V down to ±0.256V. -/
inductive adsGain_t where
  | GAIN_TWOTHIRDS
  | GAIN_ONE
  | GAIN_TWO
  | GAIN_FOUR
  | GAIN_EIGHT
  | GAIN_SIXTEEN
  deriving DecidableEq, Repr

/-- Modelled from the spec: the enumerators of `adsGain_t` are the gain-field patterns of the
register map, widest range first. -/
def adsGain_t.toNat : adsGain_t → Nat
  | .GAIN_TWOTHIRDS => ADS1015_REG_CONFIG_PGA_6_144V
  | .GAIN_ONE => ADS1015_REG_CONFIG_PGA_4_096V
  | .GAIN_TWO => ADS1015_REG_CONFIG_PGA_2_048V
  | .GAIN_FOUR => ADS1015_REG_CONFIG_PGA_1_024V
  | .GAIN_EIGHT => ADS1015_REG_CONFIG_PGA_0_512V
  | .GAIN_SIXTEEN => ADS1015_REG_CONFIG_PGA_0_256V

/-! ## Collaborators -/

/-- The two bus objects of the source: `Wire` (hardware) and `Wire2` (software). -/
inductive Bus where
  | Wire
  | Wire2
  deriving DecidableEq, Repr

/-- One call made on a collaborator: a bus primitive or the timer `delay`. -/
inductive Call where
  | begin_ (bus : Bus)
  | setClock (bus : Bus) (hz : Nat)
  | setSda (pin : Nat)
  | setScl (pin : Nat)
  | setDelay_us (us : Nat)
  | setRxBuffer
  | setTxBuffer
  | beginTransmission (bus : Bus) (address : Nat)
  | write (bus : Bus) (byte : Nat)
  | endTransmission (bus : Bus)
  | requestFrom (bus : Bus) (address : Nat) (quantity : Nat)
  | read (bus : Bus)
  | delay (ms : Nat)
  deriving DecidableEq, Repr

/-- Fields of the driver object (`Adafruit_ADS1015` and its subclass share them). -/
structure Adafruit_ADS1015 where
  m_i2cAddress : Nat
  m_conversionDelay : Nat
  m_bitShift : Nat
  m_gain : adsGain_t
  pin_SDA : Nat
  pin_SCL : Nat
  deriving DecidableEq, Repr

/-- The driver object together with its collaborators: `rx` holds the bytes the device
delivers to successive `read()` calls, `log` every collaborator call so far, oldest first. -/
structure State where
  self : Adafruit_ADS1015
  rx : List Nat
  log : List Call
  deriving DecidableEq, Repr

/-- Record one collaborator call. -/
def call (c : Call) (σ : State) : State :=
  { σ with log := σ.log ++ [c] }

/-- The bus `read()` primitive as a `uint8_t`: the next received byte; an exhausted
receive buffer makes the Arduino `read()` return -1, which is 0xFF as a byte. -/
def busRead (bus : Bus) (σ : State) : Nat × State :=
  match σ.rx with
  | [] => (0xFF, call (.read bus) σ)
  | b :: rest => (b % 256, call (.read bus) { σ with rx := rest })

/-- Source `i2cread`, lines 39-45. -/
def i2cread (σ : State) : Nat × State := busRead .Wire2 σ

/-- Source `i2cwrite`, lines 52-58. -/
def i2cwrite (x : Nat) (σ : State) : State := call (.write .Wire2 (x % 256)) σ

/-- Source `i2c_HW_read`, lines 65-71. -/
def i2c_HW_read (σ : State) : Nat × State := busRead .Wire σ

/-- Source `i2c_HW_write`, lines 78-84. -/
def i2c_HW_write (x : Nat) (σ : State) : State := call (.write .Wire (x % 256)) σ

/-- Reinterpret the low 16 bits as a two's-complement `int16_t`. -/
def toInt16 (x : Nat) : Int :=
  if x % 65536 < 32768 then (x % 65536 : Nat) else ((x % 65536 : Nat) : Int) - 65536

/-- Conversion of an `int` to `uint16_t`. -/
def toUInt16 (x : Int) : Nat := (x % 65536).toNat

/-! ## The driver -/

/-- Bus set-up shared by both constructors, lines 100-112 and 129-141. -/
def busSetup (σ : State) : State :=
  if σ.self.pin_SDA = 0 ∧ σ.self.pin_SCL = 0 then
    let σ := call (.begin_ .Wire) σ
    call (.setClock .Wire 400000) σ
  else
    let σ := call (.setSda σ.self.pin_SDA) σ
    let σ := call (.setScl σ.self.pin_SCL) σ
    let σ := call (.setDelay_us 5) σ
    let σ := call .setRxBuffer σ
    let σ := call .setTxBuffer σ
    let σ := call (.setClock .Wire2 400000) σ
    call (.begin_ .Wire2) σ

/-- Constructor `Adafruit_ADS1015::Adafruit_ADS1015`, lines 91-113.  The header constant
`ADS1015_CONVERSIONDELAY` is a parameter; `rx` is what the mocked device will deliver. -/
def Adafruit_ADS1015.new (ADS1015_CONVERSIONDELAY : Nat) (i2cAddress pinSDA pinSCL : Nat)
    (rx : List Nat) : State :=
  busSetup
    { self :=
        { m_i2cAddress := i2cAddress
          pin_SDA := pinSDA
          pin_SCL := pinSCL
          m_conversionDelay := ADS1015_CONVERSIONDELAY
          m_bitShift := 4
          m_gain := .GAIN_TWOTHIRDS }
      rx := rx
      log := [] }

/-- Constructor `Adafruit_ADS1115::Adafruit_ADS1115`, lines 120-142. -/
def Adafruit_ADS1115.new (ADS1015_CONVERSIONDELAY : Nat) (i2cAddress pinSDA pinSCL : Nat)
    (rx : List Nat) : State :=
  busSetup
    { self :=
        { m_i2cAddress := i2cAddress
          m_conversionDelay := ADS1015_CONVERSIONDELAY
          m_bitShift := 4
          m_gain := .GAIN_TWOTHIRDS
          pin_SDA := pinSDA
          pin_SCL := pinSCL }
      rx := rx
      log := [] }

/-- Source `writeRegister`, lines 149-164. -/
def writeRegister (i2cAddress reg value : Nat) (σ : State) : State :=
  if σ.self.pin_SDA = 0 ∧ σ.self.pin_SCL = 0 then
    let σ := call (.beginTransmission .Wire i2cAddress) σ
    let σ := i2c_HW_write (reg % 256) σ
    let σ := i2c_HW_write ((value >>> 8) % 256) σ
    let σ := i2c_HW_write ((value &&& 0xFF) % 256) σ
    call (.endTransmission .Wire) σ
  else
    let σ := call (.beginTransmission .Wire2 i2cAddress) σ
    let σ := i2cwrite (reg % 256) σ
    let σ := i2cwrite ((value >>> 8) % 256) σ
    let σ := i2cwrite ((value &&& 0xFF) % 256) σ
    call (.endTransmission .Wire2) σ

/-- Source `readRegister`, lines 171-186.  The pointer byte written is the constant
`ADS1015_REG_POINTER_CONVERT`; the argument `reg` is not used by the source.  The two
`read()` calls are taken left to right; the result is truncated to `uint16_t`. -/
def readRegister (i2cAddress reg : Nat) (σ : State) : Nat × State :=
  let _ := reg
  if σ.self.pin_SDA = 0 ∧ σ.self.pin_SCL = 0 then
    let σ := call (.beginTransmission .Wire i2cAddress) σ
    let σ := i2c_HW_write ADS1015_REG_POINTER_CONVERT σ
    let σ := call (.endTransmission .Wire) σ
    let σ := call (.requestFrom .Wire i2cAddress 2) σ
    let r0 := i2c_HW_read σ
    let r1 := i2c_HW_read r0.2
    (((r0.1 <<< 8) ||| r1.1) % 65536, r1.2)
  else
    let σ := call (.beginTransmission .Wire2 i2cAddress) σ
    let σ := i2cwrite ADS1015_REG_POINTER_CONVERT σ
    let σ := call (.endTransmission .Wire2) σ
    let σ := call (.requestFrom .Wire2 i2cAddress 2) σ
    let r0 := i2cread σ
    let r1 := i2cread r0.2
    (((r0.1 <<< 8) ||| r1.1) % 65536, r1.2)

/-- The `switch ( channel )` of lines 210-224 and 359-373: OR the multiplexer pattern of a
single-ended channel into `config`; no case matches a channel above 3. -/
def muxSwitch (channel config : Nat) : Nat :=
  match channel with
  | 0 => config ||| ADS1015_REG_CONFIG_MUX_SINGLE_0
  | 1 => config ||| ADS1015_REG_CONFIG_MUX_SINGLE_1
  | 2 => config ||| ADS1015_REG_CONFIG_MUX_SINGLE_2
  | 3 => config ||| ADS1015_REG_CONFIG_MUX_SINGLE_3
  | _ => config

/-- The "default values" word of the single-shot reads, lines 199-204, 250-255, 298-303. -/
def singleShotDefaults : Nat :=
  ADS1015_REG_CONFIG_CQUE_NONE |||
  ADS1015_REG_CONFIG_CLAT_NONLAT |||
  ADS1015_REG_CONFIG_CPOL_ACTVLOW |||
  ADS1015_REG_CONFIG_CMODE_TRAD |||
  ADS1015_REG_CONFIG_DR_1600SPS |||
  ADS1015_REG_CONFIG_MODE_SINGLE

/-- The config word `readADC_SingleEnded` assembles, lines 199-227. -/
def singleEndedConfig (m_gain : adsGain_t) (channel : Nat) : Nat :=
  let config := singleShotDefaults
  let config := config ||| m_gain.toNat
  let config := muxSwitch channel config
  config ||| ADS1015_REG_CONFIG_OS_SINGLE

/-- Source `readADC_SingleEnded`, lines 193-238. -/
def readADC_SingleEnded (channel : Nat) (σ : State) : Nat × State :=
  if channel > 3 then
    (0, σ)
  else
    let config := singleEndedConfig σ.self.m_gain channel
    let σ := writeRegister σ.self.m_i2cAddress ADS1015_REG_POINTER_CONFIG config σ
    let σ := call (.delay σ.self.m_conversionDelay) σ
    let r := readRegister σ.self.m_i2cAddress ADS1015_REG_POINTER_CONVERT σ
    ((r.1 >>> r.2.self.m_bitShift) % 65536, r.2)

/-- Lines 273-285, 321-333 and 395-407: shift the register value right by `m_bitShift`,
extend the sign from bit 11 when the shift is not zero, and convert to `int16_t`. -/
def signedResult (m_bitShift raw : Nat) : Int :=
  let res := (raw >>> m_bitShift) % 65536
  if m_bitShift = 0 then
    toInt16 res
  else
    let res := if res > 0x07FF then res ||| 0xF000 else res
    toInt16 res

/-- The config word `readADC_Differential_0_1` assembles, lines 250-264. -/
def differential01Config (m_gain : adsGain_t) : Nat :=
  let config := singleShotDefaults
  let config := config ||| m_gain.toNat
  let config := config ||| ADS1015_REG_CONFIG_MUX_DIFF_0_1
  config ||| ADS1015_REG_CONFIG_OS_SINGLE

/-- Source `readADC_Differential_0_1`, lines 248-286. -/
def readADC_Differential_0_1 (σ : State) : Int × State :=
  let config := differential01Config σ.self.m_gain
  let σ := writeRegister σ.self.m_i2cAddress ADS1015_REG_POINTER_CONFIG config σ
  let σ := call (.delay σ.self.m_conversionDelay) σ
  let r := readRegister σ.self.m_i2cAddress ADS1015_REG_POINTER_CONVERT σ
  (signedResult r.2.self.m_bitShift r.1, r.2)

/-- The config word `readADC_Differential_2_3` assembles, lines 298-312. -/
def differential23Config (m_gain : adsGain_t) : Nat :=
  let config := singleShotDefaults
  let config := config ||| m_gain.toNat
  let config := config ||| ADS1015_REG_CONFIG_MUX_DIFF_2_3
  config ||| ADS1015_REG_CONFIG_OS_SINGLE

/-- Source `readADC_Differential_2_3`, lines 296-334. -/
def readADC_Differential_2_3 (σ : State) : Int × State :=
  let config := differential23Config σ.self.m_gain
  let σ := writeRegister σ.self.m_i2cAddress ADS1015_REG_POINTER_CONFIG config σ
  let σ := call (.delay σ.self.m_conversionDelay) σ
  let r := readRegister σ.self.m_i2cAddress ADS1015_REG_POINTER_CONVERT σ
  (signedResult r.2.self.m_bitShift r.1, r.2)

/-- The config word `startComparator_SingleEnded` assembles, lines 347-373. -/
def comparatorConfig (m_gain : adsGain_t) (channel : Nat) : Nat :=
  let config :=
    ADS1015_REG_CONFIG_CQUE_1CONV |||
    ADS1015_REG_CONFIG_CLAT_LATCH |||
    ADS1015_REG_CONFIG_CPOL_ACTVLOW |||
    ADS1015_REG_CONFIG_CMODE_TRAD |||
    ADS1015_REG_CONFIG_DR_1600SPS |||
    ADS1015_REG_CONFIG_MODE_CONTIN |||
    ADS1015_REG_CONFIG_MODE_CONTIN
  let config := config ||| m_gain.toNat
  muxSwitch channel config

/-- Source `startComparator_SingleEnded`, lines 345-381.  `threshold << m_bitShift` is
computed on `int` and converted to the `uint16_t` parameter of `writeRegister`. -/
def startComparator_SingleEnded (channel : Nat) (threshold : Int) (σ : State) : State :=
  let config := comparatorConfig σ.self.m_gain channel
  let σ := writeRegister σ.self.m_i2cAddress ADS1015_REG_POINTER_HITHRESH
    (toUInt16 (threshold * 2 ^ σ.self.m_bitShift)) σ
  writeRegister σ.self.m_i2cAddress ADS1015_REG_POINTER_CONFIG config σ

/-- Source `getLastConversionResults`, lines 390-408. -/
def getLastConversionResults (σ : State) : Int × State :=
  let σ := call (.delay σ.self.m_conversionDelay) σ
  let r := readRegister σ.self.m_i2cAddress ADS1015_REG_POINTER_CONVERT σ
  (signedResult r.2.self.m_bitShift r.1, r.2)

/-- Source `setGain`, lines 415-417. -/
def setGain (gain : adsGain_t) (σ : State) : State :=
  { σ with self := { σ.self with m_gain := gain } }

/-- Source `getGain`, lines 424-426. -/
def getGain (σ : State) : adsGain_t × State :=
  (σ.self.m_gain, σ)

/-! ## Vocabulary of the specification -/

/-- The bus object selected by the test `( pin_SDA == 0 ) && ( pin_SCL == 0 )`. -/
def busOf (self : Adafruit_ADS1015) : Bus :=
  if self.pin_SDA = 0 ∧ self.pin_SCL = 0 then .Wire else .Wire2

/-- Specification side: a write transaction, i.e. begin, the pointer byte, the value high
byte first, end. -/
def writeTransaction (bus : Bus) (address pointer value : Nat) : List Call :=
  [.beginTransmission bus address, .write bus pointer, .write bus (value / 256),
   .write bus (value % 256), .endTransmission bus]

/-- Specification side: a register read, i.e. begin, the pointer byte, end, then a request
for two bytes and the two byte reads. -/
def readTransaction (bus : Bus) (address pointer : Nat) : List Call :=
  [.beginTransmission bus address, .write bus pointer, .endTransmission bus,
   .requestFrom bus address 2, .read bus, .read bus]

/-- Specification side: the two bytes of a 16-bit register value as the device sends them,
high byte first. -/
def wireBytes (raw : Nat) : List Nat := [raw / 256, raw % 256]

/-- Specification side: a 16-bit value read as a two's-complement signed integer. -/
def asSigned16 (raw : Nat) : Int :=
  if raw < 0x8000 then (raw : Int) else (raw : Int) - 65536

/-- A 12-bit-variant session at the default address on the hardware bus whose device will
answer the next register read with `raw`. -/
def session12 (raw : Nat) : State :=
  Adafruit_ADS1015.new 1 0x48 0 0 (wireBytes raw)

/-- A 16-bit-variant session at the default address on the hardware bus whose device will
answer the next register read with `raw`. -/
def session16 (raw : Nat) : State :=
  Adafruit_ADS1115.new 1 0x48 0 0 (wireBytes raw)

/-- The register word `startComparator_SingleEnded` hands to `writeRegister` for the
high-threshold register, line 377: `threshold << m_bitShift` converted to `uint16_t`. -/
def encodeThreshold (threshold : Int) (m_bitShift : Nat) : Nat :=
  toUInt16 (threshold * 2 ^ m_bitShift)

/-- Specification side: the bytes a sequence of collaborator calls puts on the bus. -/
def bytesWritten : List Call → List Nat
  | [] => []
  | .write _ b :: cs => b :: bytesWritten cs
  | _ :: cs => bytesWritten cs

/-- A session on the hardware bus whose bit-shift width is 0, the value the signed reads
test for, and whose device will answer the next register read with `raw`. -/
def sessionShift0 (raw : Nat) : State :=
  { self :=
      { m_i2cAddress := 0x48
        m_conversionDelay := 8
        m_bitShift := 0
        m_gain := .GAIN_TWOTHIRDS
        pin_SDA := 0
        pin_SCL := 0 }
    rx := wireBytes raw
    log := [] }

/-- The public operations of the driver object, as calls with their arguments. -/
inductive Operation where
  | readADC_SingleEnded (channel : Nat)
  | readADC_Differential_0_1
  | readADC_Differential_2_3
  | startComparator_SingleEnded (channel : Nat) (threshold : Int)
  | getLastConversionResults
  | setGain (gain : adsGain_t)
  | getGain
  deriving DecidableEq, Repr

/-- The state after one public operation (the returned value is dropped). -/
def Operation.run : Operation → State → State
  | .readADC_SingleEnded channel, σ => (ADS1015.readADC_SingleEnded channel σ).2
  | .readADC_Differential_0_1, σ => (ADS1015.readADC_Differential_0_1 σ).2
  | .readADC_Differential_2_3, σ => (ADS1015.readADC_Differential_2_3 σ).2
  | .startComparator_SingleEnded channel threshold, σ =>
      ADS1015.startComparator_SingleEnded channel threshold σ
  | .getLastConversionResults, σ => (ADS1015.getLastConversionResults σ).2
  | .setGain gain, σ => ADS1015.setGain gain σ
  | .getGain, σ => (ADS1015.getGain σ).2

/-- The state after a sequence of public operations, first to last. -/
def runOperations : List Operation → State → State
  | [], σ => σ
  | op :: ops, σ => runOperations ops (op.run σ)

/-- Specification side: the gain a session holds after a sequence of public operations when
only `setGain` mutates it: the argument of the last `setGain`, else the gain it started
with. -/
def gainAfter : List Operation → adsGain_t → adsGain_t
  | [], g => g
  | .setGain gain :: ops, _ => gainAfter ops gain
  | _ :: ops, g => gainAfter ops g

/-! ## Arithmetic of the casts -/

theorem or_F000_of_lt {x : Nat} (h : x < 4096) : x ||| 0xF000 = x + 0xF000 := by
  have := Nat.mul_add_lt_is_or (i := 12) (b := x) (by simpa using h) 15
  rw [Nat.or_comm]; simpa [Nat.add_comm] using this.symm

theorem shl8_or_of_lt {hi lo : Nat} (h : lo < 256) : (hi <<< 8) ||| lo = hi * 256 + lo := by
  have := Nat.mul_add_lt_is_or (i := 8) (b := lo) (by simpa using h) hi
  rw [Nat.shiftLeft_eq]; simpa [Nat.mul_comm] using this.symm

theorem and_FF (v : Nat) : v &&& 0xFF = v % 256 := by
  simpa using Nat.and_pow_two_sub_one_eq_mod v 8

theorem combine_wireBytes {raw : Nat} (h : raw < 65536) :
    (((raw / 256 % 256) <<< 8) ||| (raw % 256 % 256)) % 65536 = raw := by
  rw [shl8_or_of_lt (by omega)]; omega

/-! ## Behaviour of the two register transactions -/

theorem writeRegister_eq (a reg v : Nat) (σ : State) (hreg : reg < 256) (hv : v < 65536) :
    writeRegister a reg v σ =
      { σ with log := σ.log ++ writeTransaction (busOf σ.self) a reg v } := by
  have h1 : v >>> 8 % 256 % 256 = v / 256 := by
    rw [Nat.shiftRight_eq_div_pow]; omega
  have h2 : (v &&& 0xFF) % 256 % 256 = v % 256 := by
    rw [and_FF]; omega
  have h3 : reg % 256 % 256 = reg := by omega
  unfold writeRegister busOf
  split <;> rename_i h <;>
    simp [h, call, i2c_HW_write, i2cwrite, writeTransaction, h1, h2, h3]

theorem readRegister_eq (a reg b0 b1 : Nat) (rest : List Nat) (σ : State)
    (hrx : σ.rx = b0 :: b1 :: rest) :
    readRegister a reg σ =
      ((((b0 % 256) <<< 8) ||| (b1 % 256)) % 65536,
        { σ with rx := rest
                 log := σ.log ++ readTransaction (busOf σ.self) a ADS1015_REG_POINTER_CONVERT }) := by
  unfold readRegister busOf
  split <;> rename_i h <;>
    simp [h, call, i2c_HW_write, i2cwrite, i2c_HW_read, i2cread, busRead, readTransaction, hrx,
      ADS1015_REG_POINTER_CONVERT]

theorem readRegister_raw (a reg raw : Nat) (rest : List Nat) (σ : State)
    (hraw : raw < 65536) (hrx : σ.rx = wireBytes raw ++ rest) :
    readRegister a reg σ =
      (raw, { σ with rx := rest
                     log := σ.log ++ readTransaction (busOf σ.self) a ADS1015_REG_POINTER_CONVERT }) := by
  rw [readRegister_eq a reg (raw / 256) (raw % 256) rest σ (by simpa [wireBytes] using hrx),
    combine_wireBytes hraw]

theorem signedResult_four {raw : Nat} (hraw : raw < 65536) :
    signedResult 4 raw = Int.fdiv (asSigned16 raw) 16 := by
  rw [Int.fdiv_eq_ediv _ (by norm_num)]
  unfold signedResult asSigned16 toInt16
  have hs : raw >>> 4 = raw / 16 := by rw [Nat.shiftRight_eq_div_pow]
  simp only [hs, show ¬ ((4 : Nat) = 0) by decide, if_false]
  have hlt : raw / 16 % 65536 < 4096 := by omega
  by_cases h : raw / 16 % 65536 > 0x07FF
  · simp only [h, if_true, or_F000_of_lt hlt]
    split_ifs <;> omega
  · simp only [h, if_false]
    split_ifs <;> omega

theorem singleEndedConfig_eq (g : adsGain_t) (c : Nat) (hc : c ≤ 3) :
    singleEndedConfig g c = 0x8183 ||| g.toNat ||| ((4 + c) <<< 12) := by
  interval_cases c <;> cases g <;> decide

theorem singleEndedConfig_lt (g : adsGain_t) (c : Nat) (hc : c ≤ 3) :
    singleEndedConfig g c < 65536 := by
  interval_cases c <;> cases g <;> decide

theorem differential01Config_lt (g : adsGain_t) : differential01Config g < 65536 := by
  cases g <;> decide

theorem differential23Config_lt (g : adsGain_t) : differential23Config g < 65536 := by
  cases g <;> decide

theorem readADC_SingleEnded_eq (c raw : Nat) (rest : List Nat) (σ : State)
    (hc : c ≤ 3) (hraw : raw < 65536) (hrx : σ.rx = wireBytes raw ++ rest) :
    readADC_SingleEnded c σ =
      ((raw >>> σ.self.m_bitShift) % 65536,
        { σ with
          rx := rest
          log := σ.log ++
            (writeTransaction (busOf σ.self) σ.self.m_i2cAddress ADS1015_REG_POINTER_CONFIG
                (singleEndedConfig σ.self.m_gain c) ++
              [Call.delay σ.self.m_conversionDelay] ++
              readTransaction (busOf σ.self) σ.self.m_i2cAddress
                ADS1015_REG_POINTER_CONVERT) }) := by
  unfold readADC_SingleEnded
  rw [if_neg (by omega)]
  simp only [writeRegister_eq _ _ _ _ (by decide : ADS1015_REG_POINTER_CONFIG < 256)
    (singleEndedConfig_lt _ _ hc)]
  rw [readRegister_raw _ _ raw rest _ hraw (by simpa [call] using hrx)]
  simp [call]

theorem readADC_Differential_0_1_eq (raw : Nat) (rest : List Nat) (σ : State)
    (hraw : raw < 65536) (hrx : σ.rx = wireBytes raw ++ rest) :
    readADC_Differential_0_1 σ =
      (signedResult σ.self.m_bitShift raw,
        { σ with
          rx := rest
          log := σ.log ++
            (writeTransaction (busOf σ.self) σ.self.m_i2cAddress ADS1015_REG_POINTER_CONFIG
                (differential01Config σ.self.m_gain) ++
              [Call.delay σ.self.m_conversionDelay] ++
              readTransaction (busOf σ.self) σ.self.m_i2cAddress
                ADS1015_REG_POINTER_CONVERT) }) := by
  unfold readADC_Differential_0_1
  simp only [writeRegister_eq _ _ _ _ (by decide : ADS1015_REG_POINTER_CONFIG < 256)
    (differential01Config_lt _)]
  rw [readRegister_raw _ _ raw rest _ hraw (by simpa [call] using hrx)]
  simp [call]

theorem readADC_Differential_2_3_eq (raw : Nat) (rest : List Nat) (σ : State)
    (hraw : raw < 65536) (hrx : σ.rx = wireBytes raw ++ rest) :
    readADC_Differential_2_3 σ =
      (signedResult σ.self.m_bitShift raw,
        { σ with
          rx := rest
          log := σ.log ++
            (writeTransaction (busOf σ.self) σ.self.m_i2cAddress ADS1015_REG_POINTER_CONFIG
                (differential23Config σ.self.m_gain) ++
              [Call.delay σ.self.m_conversionDelay] ++
              readTransaction (busOf σ.self) σ.self.m_i2cAddress
                ADS1015_REG_POINTER_CONVERT) }) := by
  unfold readADC_Differential_2_3
  simp only [writeRegister_eq _ _ _ _ (by decide : ADS1015_REG_POINTER_CONFIG < 256)
    (differential23Config_lt _)]
  rw [readRegister_raw _ _ raw rest _ hraw (by simpa [call] using hrx)]
  simp [call]

theorem getLastConversionResults_eq (raw : Nat) (rest : List Nat) (σ : State)
    (hraw : raw < 65536) (hrx : σ.rx = wireBytes raw ++ rest) :
    getLastConversionResults σ =
      (signedResult σ.self.m_bitShift raw,
        { σ with
          rx := rest
          log := σ.log ++
            ([Call.delay σ.self.m_conversionDelay] ++
              readTransaction (busOf σ.self) σ.self.m_i2cAddress
                ADS1015_REG_POINTER_CONVERT) }) := by
  unfold getLastConversionResults
  dsimp only
  rw [readRegister_raw _ _ raw rest _ hraw (by simpa [call] using hrx)]
  simp [call]

theorem readRegister_frame (a reg : Nat) (σ : State) :
    (readRegister a reg σ).2.self = σ.self ∧
    (readRegister a reg σ).2.log =
      σ.log ++ readTransaction (busOf σ.self) a ADS1015_REG_POINTER_CONVERT := by
  obtain ⟨self, rx, log⟩ := σ
  unfold readRegister busOf
  rcases rx with _ | ⟨b0, _ | ⟨b1, rest⟩⟩ <;> dsimp only <;> split <;> rename_i h <;>
    simp [h, call, i2c_HW_write, i2cwrite, i2c_HW_read, i2cread, busRead, readTransaction,
      ADS1015_REG_POINTER_CONVERT]

theorem readADC_SingleEnded_frame (c : Nat) (σ : State) (hc : c ≤ 3) :
    (readADC_SingleEnded c σ).2.self = σ.self ∧
    (readADC_SingleEnded c σ).2.log =
      σ.log ++
        (writeTransaction (busOf σ.self) σ.self.m_i2cAddress ADS1015_REG_POINTER_CONFIG
            (singleEndedConfig σ.self.m_gain c) ++
          [Call.delay σ.self.m_conversionDelay] ++
          readTransaction (busOf σ.self) σ.self.m_i2cAddress ADS1015_REG_POINTER_CONVERT) := by
  unfold readADC_SingleEnded
  rw [if_neg (by omega)]
  simp only [writeRegister_eq _ _ _ _ (by decide : ADS1015_REG_POINTER_CONFIG < 256)
    (singleEndedConfig_lt _ _ hc)]
  constructor
  · rw [(readRegister_frame _ _ _).1]; rfl
  · rw [(readRegister_frame _ _ _).2]; simp [call]

theorem singleEndedConfig_mux (g : adsGain_t) (c : Nat) (hc : c ≤ 3) :
    singleEndedConfig g c &&& 0x7000 = (4 + c) <<< 12 := by
  interval_cases c <;> cases g <;> decide

theorem singleEndedConfig_gain (g : adsGain_t) (c : Nat) (hc : c ≤ 3) :
    singleEndedConfig g c &&& 0x0E00 = g.toNat := by
  interval_cases c <;> cases g <;> decide

theorem adsGain_t.toNat_injective (g g' : adsGain_t) (h : g.toNat = g'.toNat) : g = g' := by
  revert h; cases g <;> cases g' <;> decide

theorem comparatorConfig_eq (g : adsGain_t) (c : Nat) (hc : c ≤ 3) :
    comparatorConfig g c = 0x0084 ||| g.toNat ||| ((4 + c) <<< 12) := by
  interval_cases c <;> cases g <;> decide

theorem comparatorConfig_lt (g : adsGain_t) (c : Nat) (hc : c ≤ 3) :
    comparatorConfig g c < 65536 := by
  interval_cases c <;> cases g <;> decide

theorem toUInt16_lt (x : Int) : toUInt16 x < 65536 := by
  unfold toUInt16; omega

theorem startComparator_SingleEnded_eq (c : Nat) (t : Int) (σ : State) (hc : c ≤ 3) :
    startComparator_SingleEnded c t σ =
      { σ with
        log := σ.log ++
          (writeTransaction (busOf σ.self) σ.self.m_i2cAddress ADS1015_REG_POINTER_HITHRESH
              (toUInt16 (t * 2 ^ σ.self.m_bitShift)) ++
            writeTransaction (busOf σ.self) σ.self.m_i2cAddress ADS1015_REG_POINTER_CONFIG
              (comparatorConfig σ.self.m_gain c)) } := by
  unfold startComparator_SingleEnded
  simp only [writeRegister_eq _ _ _ _ (by decide : ADS1015_REG_POINTER_HITHRESH < 256)
    (toUInt16_lt _),
    writeRegister_eq _ _ _ _ (by decide : ADS1015_REG_POINTER_CONFIG < 256)
    (comparatorConfig_lt _ _ hc), List.append_assoc]

theorem and_FFF0 (r : Nat) : r &&& 0xFFF0 = (r / 16 % 4096) * 16 := by
  have h1 : (0xFFF0 : Nat) = (2 ^ 12 - 1) <<< 4 := by decide
  have h2 : (r / 16 % 4096) * 16 = ((r >>> 4) % 2 ^ 12) <<< 4 := by
    rw [Nat.shiftRight_eq_div_pow, Nat.shiftLeft_eq]; norm_num
  rw [h1, h2]
  apply Nat.eq_of_testBit_eq
  intro i
  simp only [Nat.testBit_and, Nat.testBit_shiftLeft, Nat.testBit_two_pow_sub_one,
    Nat.testBit_mod_two_pow, Nat.testBit_shiftRight]
  by_cases h : 4 ≤ i
  · have : 4 + (i - 4) = i := by omega
    simp [h, this, Bool.and_comm]
  · simp [h]

theorem signedResult_zero {raw : Nat} (hraw : raw < 65536) :
    signedResult 0 raw = asSigned16 raw := by
  unfold signedResult asSigned16 toInt16
  simp only [Nat.shiftRight_zero, if_true]
  split_ifs <;> omega

theorem encodeThreshold_four (t : Int) :
    encodeThreshold t 4 = ((t * 16) % 65536).toNat := by
  unfold encodeThreshold toUInt16; norm_num

theorem encodeThreshold_zero (t : Int) :
    encodeThreshold t 0 = (t % 65536).toNat := by
  unfold encodeThreshold toUInt16; norm_num

theorem encodeThreshold_lt (t : Int) (w : Nat) : encodeThreshold t w < 65536 :=
  toUInt16_lt _

theorem decode_encode_four {t : Int} (hlo : -2048 ≤ t) (hhi : t ≤ 2047) :
    signedResult 4 (encodeThreshold t 4) = t := by
  rw [signedResult_four (encodeThreshold_lt t 4), Int.fdiv_eq_ediv _ (by norm_num),
    encodeThreshold_four]
  unfold asSigned16
  split_ifs <;> omega

theorem decode_encode_zero {t : Int} (hlo : -32768 ≤ t) (hhi : t ≤ 32767) :
    signedResult 0 (encodeThreshold t 0) = t := by
  rw [signedResult_zero (encodeThreshold_lt t 0), encodeThreshold_zero]
  unfold asSigned16
  split_ifs <;> omega

theorem writeRegister_frame (a reg v : Nat) (σ : State) :
    (writeRegister a reg v σ).self = σ.self ∧ (writeRegister a reg v σ).rx = σ.rx := by
  unfold writeRegister
  split <;> simp [call, i2c_HW_write, i2cwrite]

theorem muxSwitch_of_gt {c : Nat} (w : Nat) (h : c > 3) : muxSwitch c w = w := by
  unfold muxSwitch
  split <;> omega

theorem comparatorConfig_of_gt (g : adsGain_t) {c : Nat} (h : c > 3) :
    comparatorConfig g c = 0x0084 ||| g.toNat := by
  unfold comparatorConfig
  simp only [muxSwitch_of_gt _ h]
  cases g <;> decide

theorem comparatorConfig_lt_any (g : adsGain_t) (c : Nat) : comparatorConfig g c < 65536 := by
  by_cases h : c ≤ 3
  · exact comparatorConfig_lt g c h
  · rw [comparatorConfig_of_gt g (by omega)]
    cases g <;> decide

theorem startComparator_SingleEnded_log (c : Nat) (t : Int) (σ : State) :
    startComparator_SingleEnded c t σ =
      { σ with
        log := σ.log ++
          (writeTransaction (busOf σ.self) σ.self.m_i2cAddress ADS1015_REG_POINTER_HITHRESH
              (encodeThreshold t σ.self.m_bitShift) ++
            writeTransaction (busOf σ.self) σ.self.m_i2cAddress ADS1015_REG_POINTER_CONFIG
              (comparatorConfig σ.self.m_gain c)) } := by
  unfold startComparator_SingleEnded encodeThreshold
  simp only [writeRegister_eq _ _ _ _ (by decide : ADS1015_REG_POINTER_HITHRESH < 256)
    (toUInt16_lt _),
    writeRegister_eq _ _ _ _ (by decide : ADS1015_REG_POINTER_CONFIG < 256)
    (comparatorConfig_lt_any _ _), List.append_assoc]

theorem getLastConversionResults_frame (σ : State) :
    (getLastConversionResults σ).2.self = σ.self ∧
    (getLastConversionResults σ).2.log =
      σ.log ++
        ([Call.delay σ.self.m_conversionDelay] ++
          readTransaction (busOf σ.self) σ.self.m_i2cAddress ADS1015_REG_POINTER_CONVERT) := by
  unfold getLastConversionResults
  dsimp only
  constructor
  · rw [(readRegister_frame _ _ _).1]; rfl
  · rw [(readRegister_frame _ _ _).2]; simp [call]

theorem readADC_SingleEnded_self (channel : Nat) (σ : State) :
    (readADC_SingleEnded channel σ).2.self = σ.self := by
  by_cases h : channel > 3
  · unfold readADC_SingleEnded; rw [if_pos h]
  · exact (readADC_SingleEnded_frame channel σ (by omega)).1

theorem readADC_Differential_0_1_self (σ : State) :
    (readADC_Differential_0_1 σ).2.self = σ.self := by
  unfold readADC_Differential_0_1
  dsimp only
  rw [(readRegister_frame _ _ _).1]
  simp [call, (writeRegister_frame _ _ _ _).1]

theorem readADC_Differential_2_3_self (σ : State) :
    (readADC_Differential_2_3 σ).2.self = σ.self := by
  unfold readADC_Differential_2_3
  dsimp only
  rw [(readRegister_frame _ _ _).1]
  simp [call, (writeRegister_frame _ _ _ _).1]

theorem startComparator_SingleEnded_self (channel : Nat) (threshold : Int) (σ : State) :
    (startComparator_SingleEnded channel threshold σ).self = σ.self := by
  rw [startComparator_SingleEnded_log]

theorem Operation.run_gain (op : Operation) (σ : State) :
    (op.run σ).self.m_gain = gainAfter [op] σ.self.m_gain := by
  cases op with
  | readADC_SingleEnded channel =>
    show (ADS1015.readADC_SingleEnded channel σ).2.self.m_gain = _
    rw [readADC_SingleEnded_self]; rfl
  | readADC_Differential_0_1 =>
    show (ADS1015.readADC_Differential_0_1 σ).2.self.m_gain = _
    rw [readADC_Differential_0_1_self]; rfl
  | readADC_Differential_2_3 =>
    show (ADS1015.readADC_Differential_2_3 σ).2.self.m_gain = _
    rw [readADC_Differential_2_3_self]; rfl
  | startComparator_SingleEnded channel threshold =>
    show (ADS1015.startComparator_SingleEnded channel threshold σ).self.m_gain = _
    rw [startComparator_SingleEnded_self]; rfl
  | getLastConversionResults =>
    show (ADS1015.getLastConversionResults σ).2.self.m_gain = _
    rw [(getLastConversionResults_frame σ).1]; rfl
  | setGain gain => rfl
  | getGain => rfl

theorem runOperations_gain (ops : List Operation) (σ : State) :
    (runOperations ops σ).self.m_gain = gainAfter ops σ.self.m_gain := by
  induction ops generalizing σ with
  | nil => rfl
  | cons op ops ih =>
    show (runOperations ops (op.run σ)).self.m_gain = _
    rw [ih, Operation.run_gain]
    cases op <;> rfl

theorem adsGain_t.toNat_within_mask (g : adsGain_t) :
    g.toNat &&& ADS1015_REG_CONFIG_PGA_MASK = g.toNat ∧ g.toNat &&& 0xF1FF = 0 := by
  cases g <;> decide

theorem or_gain_other_fields (g : adsGain_t) (w : Nat) :
    (w ||| g.toNat) &&& 0xF1FF = w &&& 0xF1FF := by
  rw [Nat.and_distrib_right, (adsGain_t.toNat_within_mask g).2, Nat.or_zero]

theorem new_gain (d a sda scl : Nat) (rx : List Nat) :
    (Adafruit_ADS1015.new d a sda scl rx).self.m_gain = adsGain_t.GAIN_TWOTHIRDS ∧
    (Adafruit_ADS1115.new d a sda scl rx).self.m_gain = adsGain_t.GAIN_TWOTHIRDS := by
  unfold Adafruit_ADS1015.new Adafruit_ADS1115.new busSetup
  constructor <;> split <;> rfl

/-! ## The claims -/

/-- C1: on a session with bit-shift width 4, for every 16-bit raw conversion-register value
the two differential reads and `getLastConversionResults` return the raw value read as a
signed 16-bit integer and divided by 16 rounding down; the result lies in [-2048, 2047]; a
shifted value of 0x0800 gives -2048 and a shifted value of 0x07FF gives 2047; and the test
`res > 0x07FF` holds exactly when bit 11 of the shifted value is set. -/
theorem C1_signed_decoding_shift4 (σ : State) (raw : Nat) (rest : List Nat)
    (hraw : raw < 65536) (hshift : σ.self.m_bitShift = 4)
    (hrx : σ.rx = wireBytes raw ++ rest) :
    (readADC_Differential_0_1 σ).1 = Int.fdiv (asSigned16 raw) 16 ∧
    (readADC_Differential_2_3 σ).1 = Int.fdiv (asSigned16 raw) 16 ∧
    (getLastConversionResults σ).1 = Int.fdiv (asSigned16 raw) 16 ∧
    -2048 ≤ Int.fdiv (asSigned16 raw) 16 ∧ Int.fdiv (asSigned16 raw) 16 ≤ 2047 ∧
    (raw >>> 4 = 0x0800 → (getLastConversionResults σ).1 = -2048) ∧
    (raw >>> 4 = 0x07FF → (getLastConversionResults σ).1 = 2047) ∧
    (raw >>> 4 > 0x07FF ↔ (raw >>> 4).testBit 11 = true) := by
  have hs : raw >>> 4 = raw / 16 := by rw [Nat.shiftRight_eq_div_pow]
  have hv : Int.fdiv (asSigned16 raw) 16 = asSigned16 raw / 16 :=
    Int.fdiv_eq_ediv _ (by norm_num)
  have h01 := readADC_Differential_0_1_eq raw rest σ hraw hrx
  have h23 := readADC_Differential_2_3_eq raw rest σ hraw hrx
  have hl := getLastConversionResults_eq raw rest σ hraw hrx
  rw [hshift, signedResult_four hraw] at h01 h23 hl
  rw [h01, h23, hl, hv, hs]
  refine ⟨rfl, rfl, rfl, ?_, ?_, ?_, ?_, ?_⟩
  · unfold asSigned16; split_ifs <;> omega
  · unfold asSigned16; split_ifs <;> omega
  · intro h; unfold asSigned16; split_ifs <;> omega
  · intro h; unfold asSigned16; split_ifs <;> omega
  · rw [Nat.testBit_to_div_mod]
    simp only [decide_eq_true_eq]
    omega

/-- C1 instantiated: raw 0x8000 (shifted value 0x0800) on a 12-bit-variant session. -/
theorem C1_signed_decoding_shift4_witness :
    (readADC_Differential_0_1 (session12 0x8000)).1 = Int.fdiv (asSigned16 0x8000) 16 ∧
    (readADC_Differential_2_3 (session12 0x8000)).1 = Int.fdiv (asSigned16 0x8000) 16 ∧
    (getLastConversionResults (session12 0x8000)).1 = Int.fdiv (asSigned16 0x8000) 16 ∧
    -2048 ≤ Int.fdiv (asSigned16 0x8000) 16 ∧ Int.fdiv (asSigned16 0x8000) 16 ≤ 2047 ∧
    (0x8000 >>> 4 = 0x0800 → (getLastConversionResults (session12 0x8000)).1 = -2048) ∧
    (0x8000 >>> 4 = 0x07FF → (getLastConversionResults (session12 0x8000)).1 = 2047) ∧
    (0x8000 >>> 4 > 0x07FF ↔ (0x8000 >>> 4).testBit 11 = true) :=
  C1_signed_decoding_shift4 (session12 0x8000) 0x8000 [] (by decide) (by decide) (by decide)

/-- C2: on a session with bit-shift width 4, for every channel c in [0,3], every gain and
every raw register value, `readADC_SingleEnded c` appends to the log exactly one write
transaction to the config register (pointer 0x01) carrying 0x8183 | gain | ((4+c) << 12),
which is OS_SINGLE | MUX_SINGLE_c | gain | MODE_SINGLE | DR_1600SPS | CQUE_NONE, then one
wait of the conversion delay, then one read of the conversion register, and returns
raw >> 4 without sign extension; the word is 0xC183 for channel 0 at the default gain. -/
theorem C2_single_ended_trace (σ : State) (c : Nat) (g : adsGain_t) (raw : Nat)
    (rest : List Nat) (hc : c ≤ 3) (hg : σ.self.m_gain = g) (hraw : raw < 65536)
    (hshift : σ.self.m_bitShift = 4) (hrx : σ.rx = wireBytes raw ++ rest) :
    readADC_SingleEnded c σ =
      (raw >>> 4,
        { σ with
          rx := rest
          log := σ.log ++
            (writeTransaction (busOf σ.self) σ.self.m_i2cAddress 0x01
                (0x8183 ||| g.toNat ||| ((4 + c) <<< 12)) ++
              [Call.delay σ.self.m_conversionDelay] ++
              readTransaction (busOf σ.self) σ.self.m_i2cAddress 0x00) }) ∧
    0x8183 ||| g.toNat ||| ((4 + c) <<< 12) =
      ADS1015_REG_CONFIG_OS_SINGLE ||| muxSwitch c 0 ||| g.toNat |||
        ADS1015_REG_CONFIG_MODE_SINGLE ||| ADS1015_REG_CONFIG_DR_1600SPS |||
        ADS1015_REG_CONFIG_CQUE_NONE ∧
    0x8183 ||| adsGain_t.GAIN_TWOTHIRDS.toNat ||| ((4 + 0) <<< 12) = 0xC183 := by
  refine ⟨?_, ?_, by decide⟩
  · rw [readADC_SingleEnded_eq c raw rest σ hc hraw hrx, hshift, hg,
      singleEndedConfig_eq g c hc]
    have hs : raw >>> 4 % 65536 = raw >>> 4 := by
      rw [Nat.shiftRight_eq_div_pow]; omega
    rw [hs]; rfl
  · interval_cases c <;> cases g <;> decide

/-- C2 instantiated: the end-to-end scenario, a freshly constructed 12-bit-variant session
at the default address and gain, channel 0, raw reading 0xABC0. -/
theorem C2_single_ended_trace_witness :
    readADC_SingleEnded 0 (session12 0xABC0) =
      (0x0ABC,
        { session12 0xABC0 with
          rx := []
          log := (session12 0xABC0).log ++
            (writeTransaction Bus.Wire 0x48 0x01 0xC183 ++ [Call.delay 1] ++
              readTransaction Bus.Wire 0x48 0x00) }) :=
  (C2_single_ended_trace (session12 0xABC0) 0 adsGain_t.GAIN_TWOTHIRDS 0xABC0 []
    (by decide) (by decide) (by decide) (by decide) (by decide)).1

/-- C3: for every channel greater than 3 and every state, `readADC_SingleEnded` returns 0 and
leaves the whole state as it was: no bus or timer call is logged, no received byte is
consumed, and the object's fields are unchanged. -/
theorem C3_invalid_channel_no_transaction (σ : State) (channel : Nat) (h : channel > 3) :
    readADC_SingleEnded channel σ = (0, σ) ∧
    (readADC_SingleEnded channel σ).2.log = σ.log ∧
    (readADC_SingleEnded channel σ).2.self = σ.self := by
  have : readADC_SingleEnded channel σ = (0, σ) := by
    unfold readADC_SingleEnded; rw [if_pos h]
  rw [this]; exact ⟨rfl, rfl, rfl⟩

/-- C3 instantiated: channel 4 on a fresh 12-bit-variant session. -/
theorem C3_invalid_channel_no_transaction_witness :
    readADC_SingleEnded 4 (session12 0x1230) = (0, session12 0x1230) ∧
    (readADC_SingleEnded 4 (session12 0x1230)).2.log = (session12 0x1230).log ∧
    (readADC_SingleEnded 4 (session12 0x1230)).2.self = (session12 0x1230).self :=
  C3_invalid_channel_no_transaction (session12 0x1230) 4 (by decide)

/-- C4, the code at the failing input: both constructors set the bit-shift width to 4, so a
session built by the 16-bit-variant constructor returns the raw value 0xFFF0 shifted right
by 4 from `readADC_SingleEnded`, not the raw value. -/
theorem C4_ads1115_constructor_shift :
    (∀ d a sda scl rx, (Adafruit_ADS1015.new d a sda scl rx).self.m_bitShift = 4) ∧
    (∀ d a sda scl rx, (Adafruit_ADS1115.new d a sda scl rx).self.m_bitShift = 4) ∧
    (readADC_SingleEnded 0 (session16 0xFFF0)).1 = 0x0FFF := by
  refine ⟨?_, ?_, by decide⟩
  · intro d a sda scl rx
    unfold Adafruit_ADS1015.new busSetup
    split <;> rfl
  · intro d a sda scl rx
    unfold Adafruit_ADS1115.new busSetup
    split <;> rfl

/-- C5, the code at the failing input: whatever register pointer is requested, the one byte
`readRegister` writes is `ADS1015_REG_POINTER_CONVERT` (0x00); asked for the config register
(pointer 0x01) it still writes 0x00, so the pointer byte differs from the requested one. -/
theorem C5_readRegister_pointer_byte :
    (∀ (a reg : Nat) (σ : State),
      (readRegister a reg σ).2.log =
        σ.log ++
          [Call.beginTransmission (busOf σ.self) a, Call.write (busOf σ.self) 0x00,
           Call.endTransmission (busOf σ.self), Call.requestFrom (busOf σ.self) a 2,
           Call.read (busOf σ.self), Call.read (busOf σ.self)]) ∧
    (readRegister 0x48 ADS1015_REG_POINTER_CONFIG (session12 0x1234)).2.log =
      (session12 0x1234).log ++
        [Call.beginTransmission Bus.Wire 0x48, Call.write Bus.Wire 0x00,
         Call.endTransmission Bus.Wire, Call.requestFrom Bus.Wire 0x48 2,
         Call.read Bus.Wire, Call.read Bus.Wire] ∧
    (readRegister 0x48 ADS1015_REG_POINTER_CONFIG (session12 0x1234)).2.log ≠
      (session12 0x1234).log ++ readTransaction Bus.Wire 0x48 ADS1015_REG_POINTER_CONFIG := by
  refine ⟨?_, by decide, by decide⟩
  intro a reg σ
  rw [(readRegister_frame a reg σ).2]; rfl

/-- C6: for every channel c in [0,3] and every gain, the config word that
`readADC_SingleEnded` writes has multiplexer field (mask 0x7000) equal to MUX_SINGLE_c, which
is 0x4000, 0x5000, 0x6000, 0x7000 for c = 0, 1, 2, 3; distinct channels have distinct
patterns; each pattern shares no bit with the gain field 0x0E00 or the mode field 0x0100; and
the channel is recovered from the word whatever the gain. -/
theorem C6_mux_field_single_ended (σ : State) (c : Nat) (hc : c ≤ 3) :
    (readADC_SingleEnded c σ).2.log =
      σ.log ++
        (writeTransaction (busOf σ.self) σ.self.m_i2cAddress ADS1015_REG_POINTER_CONFIG
            (singleEndedConfig σ.self.m_gain c) ++
          [Call.delay σ.self.m_conversionDelay] ++
          readTransaction (busOf σ.self) σ.self.m_i2cAddress ADS1015_REG_POINTER_CONVERT) ∧
    singleEndedConfig σ.self.m_gain c &&& ADS1015_REG_CONFIG_MUX_MASK = muxSwitch c 0 ∧
    ADS1015_REG_CONFIG_MUX_MASK = 0x7000 ∧
    (c = 0 → muxSwitch c 0 = 0x4000) ∧ (c = 1 → muxSwitch c 0 = 0x5000) ∧
    (c = 2 → muxSwitch c 0 = 0x6000) ∧ (c = 3 → muxSwitch c 0 = 0x7000) ∧
    (∀ c', c' ≤ 3 → c' ≠ c → muxSwitch c' 0 ≠ muxSwitch c 0) ∧
    muxSwitch c 0 &&& 0x0E00 = 0 ∧
    muxSwitch c 0 &&& 0x0100 = 0 ∧
    (∀ (g' : adsGain_t) (c' : Nat), c' ≤ 3 →
      singleEndedConfig g' c' &&& 0x7000 = singleEndedConfig σ.self.m_gain c &&& 0x7000 →
      c' = c) := by
  refine ⟨(readADC_SingleEnded_frame c σ hc).2, ?_, rfl, ?_, ?_, ?_, ?_, ?_, ?_, ?_, ?_⟩
  · generalize σ.self.m_gain = g
    interval_cases c <;> cases g <;> decide
  · rintro rfl; decide
  · rintro rfl; decide
  · rintro rfl; decide
  · rintro rfl; decide
  · intro c' hc' hne
    interval_cases c <;> interval_cases c' <;> first | decide | exact absurd rfl hne
  · interval_cases c <;> decide
  · interval_cases c <;> decide
  · intro g' c' hc' h
    rw [singleEndedConfig_mux g' c' hc', singleEndedConfig_mux _ c hc] at h
    simp only [Nat.shiftLeft_eq] at h
    omega

/-- C6 instantiated: channel 2 on a fresh 12-bit-variant session. -/
theorem C6_mux_field_single_ended_witness :
    singleEndedConfig (session12 0).self.m_gain 2 &&& ADS1015_REG_CONFIG_MUX_MASK =
      muxSwitch 2 0 ∧
    (2 = 2 → muxSwitch 2 0 = 0x6000) :=
  ⟨(C6_mux_field_single_ended (session12 0) 2 (by decide)).2.1,
   (C6_mux_field_single_ended (session12 0) 2 (by decide)).2.2.2.2.2.1⟩

/-- C7: for every gain g and every prior state, `setGain g` followed by `getGain` returns g;
neither call logs a bus or timer call or touches the received bytes; and the config word a
following `readADC_SingleEnded c` (c in [0,3]) writes has gain field (mask 0x0E00) equal to
the pattern of g, which differs from the previous gain's pattern whenever g differs from the
previous gain. -/
theorem C7_setGain_getGain (σ : State) (g : adsGain_t) (c : Nat) (hc : c ≤ 3) :
    (getGain (setGain g σ)).1 = g ∧
    (setGain g σ).log = σ.log ∧ (setGain g σ).rx = σ.rx ∧
    (getGain (setGain g σ)).2 = setGain g σ ∧
    (readADC_SingleEnded c (getGain (setGain g σ)).2).2.log =
      σ.log ++
        (writeTransaction (busOf σ.self) σ.self.m_i2cAddress ADS1015_REG_POINTER_CONFIG
            (singleEndedConfig g c) ++
          [Call.delay σ.self.m_conversionDelay] ++
          readTransaction (busOf σ.self) σ.self.m_i2cAddress ADS1015_REG_POINTER_CONVERT) ∧
    singleEndedConfig g c &&& ADS1015_REG_CONFIG_PGA_MASK = g.toNat ∧
    ADS1015_REG_CONFIG_PGA_MASK = 0x0E00 ∧
    (g ≠ σ.self.m_gain →
      singleEndedConfig g c &&& ADS1015_REG_CONFIG_PGA_MASK ≠ σ.self.m_gain.toNat) := by
  have hgain : singleEndedConfig g c &&& ADS1015_REG_CONFIG_PGA_MASK = g.toNat :=
    singleEndedConfig_gain g c hc
  refine ⟨rfl, rfl, rfl, rfl, ?_, hgain, rfl, ?_⟩
  · have h := (readADC_SingleEnded_frame c (getGain (setGain g σ)).2 hc).2
    simpa [getGain, setGain, busOf] using h
  · intro hne heq
    rw [hgain] at heq
    exact hne (adsGain_t.toNat_injective _ _ heq)

/-- C7 instantiated: raising the gain of a fresh session to GAIN_FOUR, then channel 1. -/
theorem C7_setGain_getGain_witness :
    (getGain (setGain adsGain_t.GAIN_FOUR (session12 0))).1 = adsGain_t.GAIN_FOUR ∧
    singleEndedConfig adsGain_t.GAIN_FOUR 1 &&& ADS1015_REG_CONFIG_PGA_MASK =
      adsGain_t.GAIN_FOUR.toNat :=
  ⟨(C7_setGain_getGain (session12 0) adsGain_t.GAIN_FOUR 1 (by decide)).1,
   (C7_setGain_getGain (session12 0) adsGain_t.GAIN_FOUR 1 (by decide)).2.2.2.2.2.1⟩

/-- C8: for every state and raw register value, the two differential reads log the same
sequence as `readADC_SingleEnded c` for a valid c (config write, conversion-delay wait,
conversion read) and consume the same received bytes; the written config words differ from
the single-ended one only under the multiplexer mask 0x7000, where they hold
MUX_DIFF_0_1 = 0x0000 and MUX_DIFF_2_3 = 0x3000; and both differential reads return the
same signed decoding of the raw value. -/
theorem C8_differential_sequencing (σ : State) (c raw : Nat) (rest : List Nat)
    (hc : c ≤ 3) (hraw : raw < 65536) (hrx : σ.rx = wireBytes raw ++ rest) :
    (readADC_SingleEnded c σ).2 =
      { σ with
        rx := rest
        log := σ.log ++
          (writeTransaction (busOf σ.self) σ.self.m_i2cAddress ADS1015_REG_POINTER_CONFIG
              (singleEndedConfig σ.self.m_gain c) ++
            [Call.delay σ.self.m_conversionDelay] ++
            readTransaction (busOf σ.self) σ.self.m_i2cAddress
              ADS1015_REG_POINTER_CONVERT) } ∧
    (readADC_Differential_0_1 σ).2 =
      { σ with
        rx := rest
        log := σ.log ++
          (writeTransaction (busOf σ.self) σ.self.m_i2cAddress ADS1015_REG_POINTER_CONFIG
              (differential01Config σ.self.m_gain) ++
            [Call.delay σ.self.m_conversionDelay] ++
            readTransaction (busOf σ.self) σ.self.m_i2cAddress
              ADS1015_REG_POINTER_CONVERT) } ∧
    (readADC_Differential_2_3 σ).2 =
      { σ with
        rx := rest
        log := σ.log ++
          (writeTransaction (busOf σ.self) σ.self.m_i2cAddress ADS1015_REG_POINTER_CONFIG
              (differential23Config σ.self.m_gain) ++
            [Call.delay σ.self.m_conversionDelay] ++
            readTransaction (busOf σ.self) σ.self.m_i2cAddress
              ADS1015_REG_POINTER_CONVERT) } ∧
    differential01Config σ.self.m_gain &&& 0x7000 = ADS1015_REG_CONFIG_MUX_DIFF_0_1 ∧
    ADS1015_REG_CONFIG_MUX_DIFF_0_1 = 0x0000 ∧
    differential23Config σ.self.m_gain &&& 0x7000 = ADS1015_REG_CONFIG_MUX_DIFF_2_3 ∧
    ADS1015_REG_CONFIG_MUX_DIFF_2_3 = 0x3000 ∧
    differential01Config σ.self.m_gain &&& 0x8FFF =
      singleEndedConfig σ.self.m_gain c &&& 0x8FFF ∧
    differential23Config σ.self.m_gain &&& 0x8FFF =
      singleEndedConfig σ.self.m_gain c &&& 0x8FFF ∧
    (readADC_Differential_0_1 σ).1 = signedResult σ.self.m_bitShift raw ∧
    (readADC_Differential_2_3 σ).1 = (readADC_Differential_0_1 σ).1 := by
  rw [readADC_SingleEnded_eq c raw rest σ hc hraw hrx,
    readADC_Differential_0_1_eq raw rest σ hraw hrx,
    readADC_Differential_2_3_eq raw rest σ hraw hrx]
  refine ⟨rfl, rfl, rfl, ?_, rfl, ?_, rfl, ?_, ?_, rfl, rfl⟩ <;>
    generalize σ.self.m_gain = g
  · cases g <;> decide
  · cases g <;> decide
  · interval_cases c <;> cases g <;> decide
  · interval_cases c <;> cases g <;> decide

/-- C8 instantiated: a fresh 12-bit-variant session, raw 0xFFF0, against channel 3. -/
theorem C8_differential_sequencing_witness :
    (readADC_Differential_0_1 (session12 0xFFF0)).2 =
      { session12 0xFFF0 with
        rx := []
        log := (session12 0xFFF0).log ++
          (writeTransaction Bus.Wire 0x48 0x01 0x8183 ++ [Call.delay 1] ++
            readTransaction Bus.Wire 0x48 0x00) } ∧
    (readADC_Differential_2_3 (session12 0xFFF0)).1 =
      (readADC_Differential_0_1 (session12 0xFFF0)).1 :=
  ⟨(C8_differential_sequencing (session12 0xFFF0) 3 0xFFF0 [] (by decide) (by decide)
      (by decide)).2.1,
   (C8_differential_sequencing (session12 0xFFF0) 3 0xFFF0 [] (by decide) (by decide)
      (by decide)).2.2.2.2.2.2.2.2.2.2⟩

/-- C9: for every channel c in [0,3], every gain and every threshold t,
`startComparator_SingleEnded c t` logs exactly two write transactions and nothing else:
first to the high-threshold register (pointer 0x03) with (t << bitShift) mod 2^16, then to
the config register (pointer 0x01) with the word 0x0084 | gain | ((4+c) << 12), whose
comparator-queue field (mask 0x0003) is assert-after-one, whose latch bit 0x0004 is set,
whose mode bit 0x0100 and start-conversion bit 0x8000 are clear, whose gain field is the
gain and whose multiplexer field is MUX_SINGLE_c. -/
theorem C9_comparator_trace (σ : State) (c : Nat) (t : Int) (hc : c ≤ 3) :
    startComparator_SingleEnded c t σ =
      { σ with
        log := σ.log ++
          (writeTransaction (busOf σ.self) σ.self.m_i2cAddress 0x03
              ((t * 2 ^ σ.self.m_bitShift) % 65536).toNat ++
            writeTransaction (busOf σ.self) σ.self.m_i2cAddress 0x01
              (0x0084 ||| σ.self.m_gain.toNat ||| ((4 + c) <<< 12))) } ∧
    (0x0084 ||| σ.self.m_gain.toNat ||| ((4 + c) <<< 12)) &&& 0x0003 =
      ADS1015_REG_CONFIG_CQUE_1CONV ∧
    (0x0084 ||| σ.self.m_gain.toNat ||| ((4 + c) <<< 12)) &&& 0x0004 =
      ADS1015_REG_CONFIG_CLAT_LATCH ∧
    ADS1015_REG_CONFIG_CLAT_LATCH = 0x0004 ∧
    (0x0084 ||| σ.self.m_gain.toNat ||| ((4 + c) <<< 12)) &&& 0x0100 = 0 ∧
    (0x0084 ||| σ.self.m_gain.toNat ||| ((4 + c) <<< 12)) &&& 0x8000 = 0 ∧
    (0x0084 ||| σ.self.m_gain.toNat ||| ((4 + c) <<< 12)) &&& 0x0E00 = σ.self.m_gain.toNat ∧
    (0x0084 ||| σ.self.m_gain.toNat ||| ((4 + c) <<< 12)) &&& 0x7000 = muxSwitch c 0 := by
  refine ⟨?_, ?_, ?_, rfl, ?_, ?_, ?_, ?_⟩
  · rw [startComparator_SingleEnded_eq c t σ hc, comparatorConfig_eq _ c hc]; rfl
  all_goals
    generalize σ.self.m_gain = g
    interval_cases c <;> cases g <;> decide

/-- C9 instantiated: channel 1 and threshold -1 on a fresh 12-bit-variant session; the
threshold word is 0xFFF0 and the config word 0x5084. -/
theorem C9_comparator_trace_witness :
    startComparator_SingleEnded 1 (-1) (session12 0) =
      { session12 0 with
        log := (session12 0).log ++
          (writeTransaction Bus.Wire 0x48 0x03 0xFFF0 ++
            writeTransaction Bus.Wire 0x48 0x01 0x5084) } :=
  (C9_comparator_trace (session12 0) 1 (-1) (by decide)).1

/-- C10: the register wire format is high byte first in both directions: `writeRegister`
logs begin(address), the byte p, the byte v >> 8, the byte v AND 0xFF, end, in that order;
`readRegister` returns b0 * 256 + b1 for received bytes b0 then b1; and when the bytes
received are the two data bytes `writeRegister` emitted for v, `readRegister` returns v. -/
theorem C10_wire_format (σ : State) (a p v b0 b1 : Nat) (rest : List Nat)
    (hp : p < 256) (hv : v < 65536) (hb0 : b0 < 256) (hb1 : b1 < 256) :
    writeRegister a p v σ =
      { σ with
        log := σ.log ++
          [Call.beginTransmission (busOf σ.self) a, Call.write (busOf σ.self) p,
           Call.write (busOf σ.self) (v >>> 8), Call.write (busOf σ.self) (v &&& 0xFF),
           Call.endTransmission (busOf σ.self)] } ∧
    (σ.rx = b0 :: b1 :: rest → (readRegister a p σ).1 = b0 * 256 + b1) ∧
    (σ.rx = (v >>> 8) :: (v &&& 0xFF) :: rest → (readRegister a p σ).1 = v) := by
  have h8 : v >>> 8 = v / 256 := by rw [Nat.shiftRight_eq_div_pow]
  refine ⟨?_, ?_, ?_⟩
  · rw [writeRegister_eq a p v σ hp hv, h8, and_FF]; rfl
  · intro hrx
    rw [readRegister_eq a p b0 b1 rest σ hrx]
    dsimp only
    rw [shl8_or_of_lt (by omega)]
    omega
  · intro hrx
    rw [h8, and_FF] at hrx
    rw [readRegister_raw a p v rest σ hv (by simpa [wireBytes] using hrx)]

/-- C10 instantiated: the word 0xBEEF written to the config register and read back. -/
theorem C10_wire_format_witness :
    writeRegister 0x48 0x01 0xBEEF (session12 0xBEEF) =
      { session12 0xBEEF with
        log := (session12 0xBEEF).log ++
          [Call.beginTransmission Bus.Wire 0x48, Call.write Bus.Wire 0x01,
           Call.write Bus.Wire 0xBE, Call.write Bus.Wire 0xEF,
           Call.endTransmission Bus.Wire] } ∧
    (readRegister 0x48 0x01 (session12 0xBEEF)).1 = 0xBE * 256 + 0xEF ∧
    (readRegister 0x48 0x01 (session12 0xBEEF)).1 = 0xBEEF :=
  have h := C10_wire_format (session12 0xBEEF) 0x48 0x01 0xBEEF 0xBE 0xEF []
    (by decide) (by decide) (by decide) (by decide)
  ⟨h.1, h.2.1 (by decide), h.2.2 (by decide)⟩

/-- C11: when the session's bit-shift width is 0, for every 16-bit raw register value the
two differential reads and `getLastConversionResults` return raw read as a signed 16-bit
integer (raw below 0x8000, raw - 65536 otherwise), the sign-extension step not being
applied: 0x8000 gives -32768 and 0x7FFF gives 32767. -/
theorem C11_signed_decoding_shift0 (σ : State) (raw : Nat) (rest : List Nat)
    (hraw : raw < 65536) (hshift : σ.self.m_bitShift = 0)
    (hrx : σ.rx = wireBytes raw ++ rest) :
    (readADC_Differential_0_1 σ).1 = (if raw < 0x8000 then (raw : Int) else (raw : Int) - 65536) ∧
    (readADC_Differential_2_3 σ).1 = (if raw < 0x8000 then (raw : Int) else (raw : Int) - 65536) ∧
    (getLastConversionResults σ).1 = (if raw < 0x8000 then (raw : Int) else (raw : Int) - 65536) ∧
    signedResult 0 raw = toInt16 raw ∧
    signedResult 0 0x8000 = -32768 ∧
    signedResult 0 0x7FFF = 32767 := by
  have h01 := readADC_Differential_0_1_eq raw rest σ hraw hrx
  have h23 := readADC_Differential_2_3_eq raw rest σ hraw hrx
  have hl := getLastConversionResults_eq raw rest σ hraw hrx
  rw [hshift, signedResult_zero hraw] at h01 h23 hl
  rw [h01, h23, hl]
  refine ⟨rfl, rfl, rfl, ?_, by decide, by decide⟩
  unfold signedResult
  simp only [Nat.shiftRight_zero, if_true]
  unfold toInt16
  have : raw % 65536 % 65536 = raw % 65536 := by omega
  rw [this]

/-- C11 instantiated: raw 0x8000 on a session whose bit-shift width is 0. -/
theorem C11_signed_decoding_shift0_witness :
    (readADC_Differential_0_1 (sessionShift0 0x8000)).1 = -32768 ∧
    (readADC_Differential_2_3 (sessionShift0 0x8000)).1 = -32768 ∧
    (getLastConversionResults (sessionShift0 0x8000)).1 = -32768 :=
  have h := C11_signed_decoding_shift0 (sessionShift0 0x8000) 0x8000 [] (by decide)
    (by decide) (by decide)
  ⟨h.1, h.2.1, h.2.2.1⟩

/-- C12 as stated fails: for width 4 and the representable threshold 1, encoding, decoding
and encoding again yields the register word 16, which is the encoding of 1 and not 1. -/
theorem C12_roundtrip_as_stated_fails :
    encodeThreshold (signedResult 4 (encodeThreshold 1 4)) 4 = 16 ∧
    ((encodeThreshold (signedResult 4 (encodeThreshold 1 4)) 4 : Nat) : Int) ≠ 1 := by
  decide

/-- C12 amended: for each bit-shift width w in {0, 4} and every threshold t representable
in signed (16-w) bits, decoding the encoded threshold returns t, and therefore encoding,
decoding and encoding again returns the encoded register word `encodeThreshold t w`; here
`encodeThreshold t w` is the word `startComparator_SingleEnded` writes to the high-threshold
register and the decoding is what `getLastConversionResults` returns. -/
theorem C12_threshold_roundtrip (w : Nat) (t : Int)
    (h : (w = 0 ∧ -32768 ≤ t ∧ t ≤ 32767) ∨ (w = 4 ∧ -2048 ≤ t ∧ t ≤ 2047)) :
    signedResult w (encodeThreshold t w) = t ∧
    encodeThreshold (signedResult w (encodeThreshold t w)) w = encodeThreshold t w ∧
    (∀ (σ : State) (c : Nat), σ.self.m_bitShift = w →
      startComparator_SingleEnded c t σ =
        { σ with
          log := σ.log ++
            (writeTransaction (busOf σ.self) σ.self.m_i2cAddress ADS1015_REG_POINTER_HITHRESH
                (encodeThreshold t w) ++
              writeTransaction (busOf σ.self) σ.self.m_i2cAddress ADS1015_REG_POINTER_CONFIG
                (comparatorConfig σ.self.m_gain c)) }) ∧
    (∀ (σ : State) (rest : List Nat), σ.self.m_bitShift = w →
      σ.rx = wireBytes (encodeThreshold t w) ++ rest →
      (getLastConversionResults σ).1 = t) := by
  have hdec : signedResult w (encodeThreshold t w) = t := by
    rcases h with ⟨rfl, hlo, hhi⟩ | ⟨rfl, hlo, hhi⟩
    · exact decode_encode_zero hlo hhi
    · exact decode_encode_four hlo hhi
  refine ⟨hdec, by rw [hdec], ?_, ?_⟩
  · intro σ c hshift
    rw [startComparator_SingleEnded_log c t σ, hshift]
  · intro σ rest hshift hrx
    rw [getLastConversionResults_eq _ rest σ (encodeThreshold_lt t w) hrx, hshift]
    exact hdec

/-- C12 instantiated: width 4 and threshold -5, whose register word is 0xFFB0. -/
theorem C12_threshold_roundtrip_witness :
    signedResult 4 (encodeThreshold (-5) 4) = -5 ∧
    encodeThreshold (signedResult 4 (encodeThreshold (-5) 4)) 4 = encodeThreshold (-5) 4 ∧
    (getLastConversionResults (session12 0xFFB0)).1 = -5 :=
  have h := C12_threshold_roundtrip 4 (-5) (Or.inr ⟨rfl, by decide, by decide⟩)
  ⟨h.1, h.2.1, h.2.2.2 (session12 0xFFB0) [] (by decide) (by decide)⟩

/-- C13: for every state, `getLastConversionResults` leaves the object's fields unchanged
and appends to the log exactly one wait of the conversion delay followed by one read of the
conversion register (pointer 0x00); the only byte among these calls that is put on the bus
is the pointer byte, whereas a register write puts three, so no register is written; and
for every raw register value it returns the signed decoding of raw. -/
theorem C13_last_conversion_frame (σ : State) (raw : Nat) (rest : List Nat)
    (hraw : raw < 65536) (hrx : σ.rx = wireBytes raw ++ rest) :
    getLastConversionResults σ =
      (signedResult σ.self.m_bitShift raw,
        { σ with
          rx := rest
          log := σ.log ++
            ([Call.delay σ.self.m_conversionDelay] ++
              readTransaction (busOf σ.self) σ.self.m_i2cAddress 0x00) }) ∧
    bytesWritten
        ([Call.delay σ.self.m_conversionDelay] ++
          readTransaction (busOf σ.self) σ.self.m_i2cAddress 0x00) = [0x00] ∧
    (∀ (bus : Bus) (a p v : Nat),
      bytesWritten (writeTransaction bus a p v) = [p, v / 256, v % 256]) ∧
    (∀ τ : State,
      (getLastConversionResults τ).2.self = τ.self ∧
      (getLastConversionResults τ).2.log =
        τ.log ++
          ([Call.delay τ.self.m_conversionDelay] ++
            readTransaction (busOf τ.self) τ.self.m_i2cAddress 0x00)) := by
  refine ⟨?_, rfl, fun _ _ _ _ => rfl, fun τ => getLastConversionResults_frame τ⟩
  rw [getLastConversionResults_eq raw rest σ hraw hrx]; rfl

/-- C13 instantiated: a fresh 12-bit-variant session whose conversion register holds
0x8010; the result is -2047. -/
theorem C13_last_conversion_frame_witness :
    getLastConversionResults (session12 0x8010) =
      (-2047,
        { session12 0x8010 with
          rx := []
          log := (session12 0x8010).log ++
            ([Call.delay 1] ++ readTransaction Bus.Wire 0x48 0x00) }) :=
  (C13_last_conversion_frame (session12 0x8010) 0x8010 [] (by decide) (by decide)).1

/-- C14: gain is the only field of the object mutated after construction: `setGain` sets
the gain and leaves device address, conversion delay, bit-shift width and both bus pins
unchanged; and `readADC_SingleEnded`, both differential reads,
`startComparator_SingleEnded`, `getLastConversionResults` and `getGain` leave every field,
gain included, unchanged, for every argument and whatever bytes the bus delivers. -/
theorem C14_gain_only_mutated_field (σ : State) (gain : adsGain_t) (channel : Nat)
    (threshold : Int) :
    (setGain gain σ).self.m_gain = gain ∧
    (setGain gain σ).self.m_i2cAddress = σ.self.m_i2cAddress ∧
    (setGain gain σ).self.m_conversionDelay = σ.self.m_conversionDelay ∧
    (setGain gain σ).self.m_bitShift = σ.self.m_bitShift ∧
    (setGain gain σ).self.pin_SDA = σ.self.pin_SDA ∧
    (setGain gain σ).self.pin_SCL = σ.self.pin_SCL ∧
    (readADC_SingleEnded channel σ).2.self = σ.self ∧
    (readADC_Differential_0_1 σ).2.self = σ.self ∧
    (readADC_Differential_2_3 σ).2.self = σ.self ∧
    (startComparator_SingleEnded channel threshold σ).self = σ.self ∧
    (getLastConversionResults σ).2.self = σ.self ∧
    (getGain σ).2.self = σ.self :=
  ⟨rfl, rfl, rfl, rfl, rfl, rfl, readADC_SingleEnded_self channel σ,
    readADC_Differential_0_1_self σ, readADC_Differential_2_3_self σ,
    startComparator_SingleEnded_self channel threshold σ,
    (getLastConversionResults_frame σ).1, rfl⟩

/-- C15: a freshly constructed session of either variant holds GAIN_TWOTHIRDS, whose bit
pattern is 0x0000; after any sequence of public operations from construction the gain is
the argument of the last `setGain` (else still GAIN_TWOTHIRDS), hence one of the six defined
values; its bit pattern lies within the gain mask 0x0E00; and OR-ing it into any config word
leaves every bit outside that mask (comparator, data rate, mode, multiplexer, start
conversion) as it was. -/
theorem C15_gain_invariant (d a sda scl : Nat) (rx : List Nat) (ops : List Operation)
    (w : Nat) :
    (Adafruit_ADS1015.new d a sda scl rx).self.m_gain = adsGain_t.GAIN_TWOTHIRDS ∧
    (Adafruit_ADS1115.new d a sda scl rx).self.m_gain = adsGain_t.GAIN_TWOTHIRDS ∧
    adsGain_t.GAIN_TWOTHIRDS.toNat = 0x0000 ∧
    (runOperations ops (Adafruit_ADS1015.new d a sda scl rx)).self.m_gain =
      gainAfter ops adsGain_t.GAIN_TWOTHIRDS ∧
    (runOperations ops (Adafruit_ADS1115.new d a sda scl rx)).self.m_gain =
      gainAfter ops adsGain_t.GAIN_TWOTHIRDS ∧
    gainAfter ops adsGain_t.GAIN_TWOTHIRDS ∈
      [adsGain_t.GAIN_TWOTHIRDS, adsGain_t.GAIN_ONE, adsGain_t.GAIN_TWO,
       adsGain_t.GAIN_FOUR, adsGain_t.GAIN_EIGHT, adsGain_t.GAIN_SIXTEEN] ∧
    (gainAfter ops adsGain_t.GAIN_TWOTHIRDS).toNat &&& 0x0E00 =
      (gainAfter ops adsGain_t.GAIN_TWOTHIRDS).toNat ∧
    (gainAfter ops adsGain_t.GAIN_TWOTHIRDS).toNat &&& 0xF1FF = 0 ∧
    (w ||| (gainAfter ops adsGain_t.GAIN_TWOTHIRDS).toNat) &&& 0xF1FF = w &&& 0xF1FF := by
  have hn := new_gain d a sda scl rx
  refine ⟨hn.1, hn.2, rfl, ?_, ?_, ?_, (adsGain_t.toNat_within_mask _).1,
    (adsGain_t.toNat_within_mask _).2, or_gain_other_fields _ w⟩
  · rw [runOperations_gain, hn.1]
  · rw [runOperations_gain, hn.2]
  · cases gainAfter ops adsGain_t.GAIN_TWOTHIRDS <;> decide

/-- C16: `startComparator_SingleEnded` does not validate its channel: for every channel
greater than 3, every gain and every threshold it still logs both register writes, the
high-threshold write being the same as for a valid channel and the config write carrying
0x0084 | gain, whose three multiplexer bits are clear: the multiplexer selection of the
differential pair 0-1 and of no single-ended channel. -/
theorem C16_comparator_channel_unvalidated (σ : State) (channel : Nat) (threshold : Int)
    (h : channel > 3) :
    startComparator_SingleEnded channel threshold σ =
      { σ with
        log := σ.log ++
          (writeTransaction (busOf σ.self) σ.self.m_i2cAddress 0x03
              ((threshold * 2 ^ σ.self.m_bitShift) % 65536).toNat ++
            writeTransaction (busOf σ.self) σ.self.m_i2cAddress 0x01
              (0x0084 ||| σ.self.m_gain.toNat)) } ∧
    (0x0084 ||| σ.self.m_gain.toNat) &&& 0x7000 = 0 ∧
    (0x0084 ||| σ.self.m_gain.toNat) &&& 0x7000 = ADS1015_REG_CONFIG_MUX_DIFF_0_1 ∧
    (∀ c, c ≤ 3 → (0x0084 ||| σ.self.m_gain.toNat) &&& 0x7000 ≠ muxSwitch c 0) ∧
    (∀ c, c ≤ 3 →
      startComparator_SingleEnded c threshold σ =
        { σ with
          log := σ.log ++
            (writeTransaction (busOf σ.self) σ.self.m_i2cAddress 0x03
                ((threshold * 2 ^ σ.self.m_bitShift) % 65536).toNat ++
              writeTransaction (busOf σ.self) σ.self.m_i2cAddress 0x01
                (0x0084 ||| σ.self.m_gain.toNat ||| ((4 + c) <<< 12))) }) := by
  refine ⟨?_, ?_, ?_, ?_, ?_⟩
  · rw [startComparator_SingleEnded_log channel threshold σ, comparatorConfig_of_gt _ h]; rfl
  · cases σ.self.m_gain <;> decide
  · cases σ.self.m_gain <;> decide
  · intro c hc
    generalize σ.self.m_gain = g
    interval_cases c <;> cases g <;> decide
  · intro c hc
    rw [startComparator_SingleEnded_eq c threshold σ hc, comparatorConfig_eq _ c hc]; rfl

/-- C16 instantiated: channel 4 and threshold 100 on a fresh 12-bit-variant session; the
threshold word is 0x0640 and the config word 0x0084. -/
theorem C16_comparator_channel_unvalidated_witness :
    startComparator_SingleEnded 4 100 (session12 0) =
      { session12 0 with
        log := (session12 0).log ++
          (writeTransaction Bus.Wire 0x48 0x03 0x0640 ++
            writeTransaction Bus.Wire 0x48 0x01 0x0084) } :=
  (C16_comparator_channel_unvalidated (session12 0) 4 100 (by decide)).1

/-- C17: single-ended results are unsigned and never sign-extended: with bit-shift width 4,
for every channel in [0,3] and every 16-bit raw value, `readADC_SingleEnded` returns at most
0x0FFF, and its value is the signed value `readADC_Differential_0_1` and
`getLastConversionResults` return for the same raw value taken modulo 4096 (its low 12
bits); the unsigned and signed values are equal exactly when raw is below 0x8000. -/
theorem C17_single_ended_unsigned (σ : State) (c raw : Nat) (rest : List Nat)
    (hc : c ≤ 3) (hraw : raw < 65536) (hshift : σ.self.m_bitShift = 4)
    (hrx : σ.rx = wireBytes raw ++ rest) :
    (readADC_SingleEnded c σ).1 = raw >>> 4 ∧
    (readADC_SingleEnded c σ).1 ≤ 0x0FFF ∧
    ((readADC_SingleEnded c σ).1 : Int) = (readADC_Differential_0_1 σ).1 % 4096 ∧
    ((readADC_SingleEnded c σ).1 : Int) = (getLastConversionResults σ).1 % 4096 ∧
    (((readADC_SingleEnded c σ).1 : Int) = (readADC_Differential_0_1 σ).1 ↔ raw < 0x8000) ∧
    (((readADC_SingleEnded c σ).1 : Int) = (getLastConversionResults σ).1 ↔
      raw < 0x8000) := by
  have hs : raw >>> 4 = raw / 16 := by rw [Nat.shiftRight_eq_div_pow]
  have h01 := readADC_Differential_0_1_eq raw rest σ hraw hrx
  have hl := getLastConversionResults_eq raw rest σ hraw hrx
  rw [hshift, signedResult_four hraw, Int.fdiv_eq_ediv _ (by norm_num)] at h01 hl
  rw [readADC_SingleEnded_eq c raw rest σ hc hraw hrx, h01, hl, hshift, hs]
  dsimp only
  unfold asSigned16
  refine ⟨by omega, by omega, ?_, ?_, ?_, ?_⟩ <;> split_ifs <;> omega

/-- C17 instantiated: channel 0 and raw 0xFFF0 on a fresh 12-bit-variant session: the
single-ended value is 0x0FFF while the signed value is -1. -/
theorem C17_single_ended_unsigned_witness :
    (readADC_SingleEnded 0 (session12 0xFFF0)).1 = 0x0FFF ∧
    ((readADC_SingleEnded 0 (session12 0xFFF0)).1 : Int) =
      (readADC_Differential_0_1 (session12 0xFFF0)).1 % 4096 :=
  have h := C17_single_ended_unsigned (session12 0xFFF0) 0 0xFFF0 [] (by decide) (by decide)
    (by decide) (by decide)
  ⟨h.1, h.2.2.1⟩

/-- C18: with bit-shift width 4, the register word `startComparator_SingleEnded` writes for
a threshold t is (t << 4) mod 2^16; for -2048 <= t <= 2047 the signed decoding of that word,
which is what `getLastConversionResults` returns when the conversion register holds it, is
exactly t; for every 16-bit register word r, encoding the decoded sample gives r AND 0xFFF0;
and for t outside [-2048, 2047] decoding the encoded word does not return t. -/
theorem C18_threshold_sample_inverse (σ : State) (c : Nat) (t : Int) (r : Nat)
    (rest : List Nat) (hshift : σ.self.m_bitShift = 4) (hr : r < 65536) :
    startComparator_SingleEnded c t σ =
      { σ with
        log := σ.log ++
          (writeTransaction (busOf σ.self) σ.self.m_i2cAddress ADS1015_REG_POINTER_HITHRESH
              (encodeThreshold t 4) ++
            writeTransaction (busOf σ.self) σ.self.m_i2cAddress ADS1015_REG_POINTER_CONFIG
              (comparatorConfig σ.self.m_gain c)) } ∧
    encodeThreshold t 4 = ((t * 16) % 65536).toNat ∧
    (σ.rx = wireBytes r ++ rest → (getLastConversionResults σ).1 = signedResult 4 r) ∧
    (-2048 ≤ t → t ≤ 2047 → signedResult 4 (encodeThreshold t 4) = t) ∧
    (-2048 ≤ t → t ≤ 2047 → σ.rx = wireBytes (encodeThreshold t 4) ++ rest →
      (getLastConversionResults σ).1 = t) ∧
    encodeThreshold (signedResult 4 r) 4 = r &&& 0xFFF0 ∧
    (t < -2048 ∨ 2047 < t → signedResult 4 (encodeThreshold t 4) ≠ t) := by
  refine ⟨?_, encodeThreshold_four t, ?_, fun hlo hhi => decode_encode_four hlo hhi, ?_, ?_, ?_⟩
  · rw [startComparator_SingleEnded_log c t σ, hshift]
  · intro hrx
    rw [getLastConversionResults_eq r rest σ hr hrx, hshift]
  · intro hlo hhi hrx
    rw [getLastConversionResults_eq _ rest σ (encodeThreshold_lt t 4) hrx, hshift]
    exact decode_encode_four hlo hhi
  · rw [and_FFF0, encodeThreshold_four, signedResult_four hr,
      Int.fdiv_eq_ediv _ (by norm_num)]
    unfold asSigned16
    split_ifs <;> omega
  · intro hout
    rw [signedResult_four (encodeThreshold_lt t 4), Int.fdiv_eq_ediv _ (by norm_num),
      encodeThreshold_four]
    unfold asSigned16
    split_ifs <;> omega

/-- C18 instantiated: threshold -2048 on a fresh 12-bit-variant session whose conversion
register holds the encoded word 0x8000, and the register word 0x1234. -/
theorem C18_threshold_sample_inverse_witness :
    encodeThreshold (-2048) 4 = 0x8000 ∧
    (getLastConversionResults (session12 0x8000)).1 = -2048 ∧
    encodeThreshold (signedResult 4 0x1234) 4 = 0x1230 :=
  have h := C18_threshold_sample_inverse (session12 0x8000) 0 (-2048) 0x1234 []
    (by decide) (by decide)
  ⟨h.2.1, h.2.2.2.2.1 (by decide) (by decide) (by decide), h.2.2.2.2.2.1⟩

end ADS1015
